import Mathlib

/-!
# Verification of the TOTP engine of `Typescript_Playwright`

Shallow embedding of the repository's TOTP core:

* `src/framework/security/otp.ts` — the `OTP` wrapper class (URI resolution,
  caching, `getCode`, `verify`, `normalizeToken`, `refresh`);
* `src/framework/env/env.ts` — the `Env` configuration store (a snapshot of
  `process.env` taken at startup, with `Env.get` / `Env.getString`);
* the `otpauth` npm library used by the wrapper is not part of the repository,
  so its behaviour (otpauth-URI parsing, base32 decoding, RFC-6238 HOTP/TOTP
  generation and windowed validation) is modelled from the specification
  (§4.2–§4.4): HMAC over SHA-1/SHA-256/SHA-512, dynamic truncation, decimal
  zero-padding, and nearest-first window search.

Machine integers are modelled as `Nat` with explicit `% 2^32` / `% 2^64`
reductions.  Strings are Lean `String`s; JavaScript timestamps are `Nat`
milliseconds (negative instants are outside the model; a candidate time step
below zero never matches during validation).
-/

/-! ## 32-bit and 64-bit word helpers (Nat with explicit wrap-around) -/

/-- Addition modulo 2^32. -/
def add32 (a b : Nat) : Nat := (a + b) % 4294967296

/-- Rotate a 32-bit word left by `n`. -/
def rotl32 (x n : Nat) : Nat := ((x <<< n) ||| (x >>> (32 - n))) % 4294967296

/-- Rotate a 32-bit word right by `n`. -/
def rotr32 (x n : Nat) : Nat := ((x >>> n) ||| (x <<< (32 - n))) % 4294967296

/-- Addition modulo 2^64. -/
def add64 (a b : Nat) : Nat := (a + b) % 18446744073709551616

/-- Rotate a 64-bit word right by `n`. -/
def rotr64 (x n : Nat) : Nat := ((x >>> n) ||| (x <<< (64 - n))) % 18446744073709551616

/-- Big-endian 4-byte encoding of a 32-bit word. -/
def be4 (n : Nat) : List Nat :=
  [(n >>> 24) % 256, (n >>> 16) % 256, (n >>> 8) % 256, n % 256]

/-- Big-endian 8-byte encoding (used for the HOTP counter and SHA-1/256 lengths). -/
def be8 (n : Nat) : List Nat :=
  [(n >>> 56) % 256, (n >>> 48) % 256, (n >>> 40) % 256, (n >>> 32) % 256,
   (n >>> 24) % 256, (n >>> 16) % 256, (n >>> 8) % 256, n % 256]

/-- Split a byte list into chunks of `size` bytes (fuel-driven structural recursion). -/
def chunksGo (size : Nat) : Nat → List Nat → List (List Nat)
  | 0, _ => []
  | _, [] => []
  | fuel + 1, l => l.take size :: chunksGo size fuel (l.drop size)

/-- Group a byte list into big-endian 32-bit words. -/
def bytesToWords32 : List Nat → List Nat
  | b0 :: b1 :: b2 :: b3 :: rest =>
      (((b0 <<< 24) ||| (b1 <<< 16)) ||| ((b2 <<< 8) ||| b3)) :: bytesToWords32 rest
  | _ => []

/-- Group a byte list into big-endian 64-bit words. -/
def bytesToWords64 : List Nat → List Nat
  | b0 :: b1 :: b2 :: b3 :: b4 :: b5 :: b6 :: b7 :: rest =>
      ((((b0 <<< 56) ||| (b1 <<< 48)) ||| ((b2 <<< 40) ||| (b3 <<< 32))) |||
       (((b4 <<< 24) ||| (b5 <<< 16)) ||| ((b6 <<< 8) ||| b7))) :: bytesToWords64 rest
  | _ => []

/-! ## SHA-1 (FIPS 180-4), bytes to bytes -/

/-- SHA-1 round constant for round `i`. -/
def sha1K (i : Nat) : Nat :=
  if i < 20 then 0x5A827999 else if i < 40 then 0x6ED9EBA1
  else if i < 60 then 0x8F1BBCDC else 0xCA62C1D6

/-- SHA-1 round function for round `i`. -/
def sha1F (i b c d : Nat) : Nat :=
  if i < 20 then (b &&& c) ||| ((b ^^^ 0xFFFFFFFF) &&& d)
  else if i < 40 then (b ^^^ c) ^^^ d
  else if i < 60 then ((b &&& c) ||| (b &&& d)) ||| (c &&& d)
  else (b ^^^ c) ^^^ d

/-- Merkle–Damgård padding shared by SHA-1 and SHA-256: append `0x80`, zeros
to 56 mod 64 bytes, then the 64-bit big-endian bit length. -/
def mdPad64 (msg : List Nat) : List Nat :=
  msg ++ 0x80 :: List.replicate ((55 + 64 - msg.length % 64) % 64) 0 ++ be8 (msg.length * 8)

/-- One step of the SHA-1 message-schedule extension; the accumulator holds the
words produced so far in reverse order. -/
def sha1ExtStep (acc : List Nat) : List Nat :=
  rotl32 (((acc.getD 2 0) ^^^ (acc.getD 7 0)) ^^^ ((acc.getD 13 0) ^^^ (acc.getD 15 0))) 1 :: acc

/-- The 80-word SHA-1 message schedule of one 16-word block. -/
def sha1Schedule (w16 : List Nat) : List Nat :=
  ((List.range 64).foldl (fun acc _ => sha1ExtStep acc) w16.reverse).reverse

/-- One SHA-1 round on the five-word state. -/
def sha1Round : Nat × Nat × Nat × Nat × Nat → Nat × Nat → Nat × Nat × Nat × Nat × Nat
  | (a, b, c, d, e), (i, w) =>
      (add32 (add32 (add32 (rotl32 a 5) (sha1F i b c d)) (add32 e (sha1K i))) w,
       a, rotl32 b 30, c, d)

/-- SHA-1 compression of one 64-byte block. -/
def sha1Compress (h : Nat × Nat × Nat × Nat × Nat) (block : List Nat) :
    Nat × Nat × Nat × Nat × Nat :=
  match h, ((List.range 80).zip (sha1Schedule (bytesToWords32 block))).foldl sha1Round h with
  | (h0, h1, h2, h3, h4), (a, b, c, d, e) =>
      (add32 h0 a, add32 h1 b, add32 h2 c, add32 h3 d, add32 h4 e)

/-- SHA-1 of a byte list, as a 20-byte list. -/
def sha1 (msg : List Nat) : List Nat :=
  let h := (chunksGo 64 (mdPad64 msg).length (mdPad64 msg)).foldl sha1Compress
      (0x67452301, 0xEFCDAB89, 0x98BADCFE, 0x10325476, 0xC3D2E1F0)
  be4 h.1 ++ be4 h.2.1 ++ be4 h.2.2.1 ++ be4 h.2.2.2.1 ++ be4 h.2.2.2.2

/-! ## SHA-256 (FIPS 180-4) -/

/-- Round constants of SHA-256 (cube-root fractional parts of the first 64 primes). -/
def sha256K : List Nat := [
  0x428A2F98, 0x71374491, 0xB5C0FBCF, 0xE9B5DBA5, 0x3956C25B, 0x59F111F1, 0x923F82A4, 0xAB1C5ED5,
  0xD807AA98, 0x12835B01, 0x243185BE, 0x550C7DC3, 0x72BE5D74, 0x80DEB1FE, 0x9BDC06A7, 0xC19BF174,
  0xE49B69C1, 0xEFBE4786, 0x0FC19DC6, 0x240CA1CC, 0x2DE92C6F, 0x4A7484AA, 0x5CB0A9DC, 0x76F988DA,
  0x983E5152, 0xA831C66D, 0xB00327C8, 0xBF597FC7, 0xC6E00BF3, 0xD5A79147, 0x06CA6351, 0x14292967,
  0x27B70A85, 0x2E1B2138, 0x4D2C6DFC, 0x53380D13, 0x650A7354, 0x766A0ABB, 0x81C2C92E, 0x92722C85,
  0xA2BFE8A1, 0xA81A664B, 0xC24B8B70, 0xC76C51A3, 0xD192E819, 0xD6990624, 0xF40E3585, 0x106AA070,
  0x19A4C116, 0x1E376C08, 0x2748774C, 0x34B0BCB5, 0x391C0CB3, 0x4ED8AA4A, 0x5B9CCA4F, 0x682E6FF3,
  0x748F82EE, 0x78A5636F, 0x84C87814, 0x8CC70208, 0x90BEFFFA, 0xA4506CEB, 0xBEF9A3F7, 0xC67178F2]

/-- One step of the SHA-256 message-schedule extension (accumulator reversed). -/
def sha256ExtStep (acc : List Nat) : List Nat :=
  let w2 := acc.getD 1 0
  let w7 := acc.getD 6 0
  let w15 := acc.getD 14 0
  let w16 := acc.getD 15 0
  let s0 := ((rotr32 w15 7) ^^^ (rotr32 w15 18)) ^^^ (w15 >>> 3)
  let s1 := ((rotr32 w2 17) ^^^ (rotr32 w2 19)) ^^^ (w2 >>> 10)
  add32 (add32 w16 s0) (add32 w7 s1) :: acc

/-- The 64-word SHA-256 message schedule of one 16-word block. -/
def sha256Schedule (w16 : List Nat) : List Nat :=
  ((List.range 48).foldl (fun acc _ => sha256ExtStep acc) w16.reverse).reverse

/-- SHA-256 working state: (a, b, c, d, e, f, g, h). -/
abbrev Sha256State := Nat × Nat × Nat × Nat × Nat × Nat × Nat × Nat

/-- One SHA-256 round. -/
def sha256Round : Sha256State → Nat × Nat → Sha256State
  | (a, b, c, d, e, f, g, h), (k, w) =>
      let s1 := ((rotr32 e 6) ^^^ (rotr32 e 11)) ^^^ (rotr32 e 25)
      let ch := (e &&& f) ^^^ ((e ^^^ 0xFFFFFFFF) &&& g)
      let t1 := add32 (add32 h s1) (add32 ch (add32 k w))
      let s0 := ((rotr32 a 2) ^^^ (rotr32 a 13)) ^^^ (rotr32 a 22)
      let mj := ((a &&& b) ^^^ (a &&& c)) ^^^ (b &&& c)
      let t2 := add32 s0 mj
      (add32 t1 t2, a, b, c, add32 d t1, e, f, g)

/-- SHA-256 compression of one 64-byte block. -/
def sha256Compress (h : Sha256State) (block : List Nat) : Sha256State :=
  match h, (sha256K.zip (sha256Schedule (bytesToWords32 block))).foldl sha256Round h with
  | (h0, h1, h2, h3, h4, h5, h6, h7), (a, b, c, d, e, f, g, hh) =>
      (add32 h0 a, add32 h1 b, add32 h2 c, add32 h3 d,
       add32 h4 e, add32 h5 f, add32 h6 g, add32 h7 hh)

/-- SHA-256 of a byte list, as a 32-byte list. -/
def sha256 (msg : List Nat) : List Nat :=
  let h := (chunksGo 64 (mdPad64 msg).length (mdPad64 msg)).foldl sha256Compress
      (0x6A09E667, 0xBB67AE85, 0x3C6EF372, 0xA54FF53A, 0x510E527F, 0x9B05688C, 0x1F83D9AB, 0x5BE0CD19)
  be4 h.1 ++ be4 h.2.1 ++ be4 h.2.2.1 ++ be4 h.2.2.2.1 ++
    be4 h.2.2.2.2.1 ++ be4 h.2.2.2.2.2.1 ++ be4 h.2.2.2.2.2.2.1 ++ be4 h.2.2.2.2.2.2.2

/-! ## SHA-512 (FIPS 180-4) -/

/-- Round constants of SHA-512 (64-bit cube-root fractional parts of the first 80 primes). -/
def sha512K : List Nat := [
  0x428A2F98D728AE22, 0x7137449123EF65CD, 0xB5C0FBCFEC4D3B2F, 0xE9B5DBA58189DBBC,
  0x3956C25BF348B538, 0x59F111F1B605D019, 0x923F82A4AF194F9B, 0xAB1C5ED5DA6D8118,
  0xD807AA98A3030242, 0x12835B0145706FBE, 0x243185BE4EE4B28C, 0x550C7DC3D5FFB4E2,
  0x72BE5D74F27B896F, 0x80DEB1FE3B1696B1, 0x9BDC06A725C71235, 0xC19BF174CF692694,
  0xE49B69C19EF14AD2, 0xEFBE4786384F25E3, 0x0FC19DC68B8CD5B5, 0x240CA1CC77AC9C65,
  0x2DE92C6F592B0275, 0x4A7484AA6EA6E483, 0x5CB0A9DCBD41FBD4, 0x76F988DA831153B5,
  0x983E5152EE66DFAB, 0xA831C66D2DB43210, 0xB00327C898FB213F, 0xBF597FC7BEEF0EE4,
  0xC6E00BF33DA88FC2, 0xD5A79147930AA725, 0x06CA6351E003826F, 0x142929670A0E6E70,
  0x27B70A8546D22FFC, 0x2E1B21385C26C926, 0x4D2C6DFC5AC42AED, 0x53380D139D95B3DF,
  0x650A73548BAF63DE, 0x766A0ABB3C77B2A8, 0x81C2C92E47EDAEE6, 0x92722C851482353B,
  0xA2BFE8A14CF10364, 0xA81A664BBC423001, 0xC24B8B70D0F89791, 0xC76C51A30654BE30,
  0xD192E819D6EF5218, 0xD69906245565A910, 0xF40E35855771202A, 0x106AA07032BBD1B8,
  0x19A4C116B8D2D0C8, 0x1E376C085141AB53, 0x2748774CDF8EEB99, 0x34B0BCB5E19B48A8,
  0x391C0CB3C5C95A63, 0x4ED8AA4AE3418ACB, 0x5B9CCA4F7763E373, 0x682E6FF3D6B2B8A3,
  0x748F82EE5DEFB2FC, 0x78A5636F43172F60, 0x84C87814A1F0AB72, 0x8CC702081A6439EC,
  0x90BEFFFA23631E28, 0xA4506CEBDE82BDE9, 0xBEF9A3F7B2C67915, 0xC67178F2E372532B,
  0xCA273ECEEA26619C, 0xD186B8C721C0C207, 0xEADA7DD6CDE0EB1E, 0xF57D4F7FEE6ED178,
  0x06F067AA72176FBA, 0x0A637DC5A2C898A6, 0x113F9804BEF90DAE, 0x1B710B35131C471B,
  0x28DB77F523047D84, 0x32CAAB7B40C72493, 0x3C9EBE0A15C9BEBC, 0x431D67C49C100D4C,
  0x4CC5D4BECB3E42B6, 0x597F299CFC657E2A, 0x5FCB6FAB3AD6FAEC, 0x6C44198C4A475817]

/-- Merkle–Damgård padding for SHA-512: append `0x80`, zeros to 112 mod 128
bytes, then the 128-bit big-endian bit length (high 8 bytes are zero here). -/
def mdPad128 (msg : List Nat) : List Nat :=
  msg ++ 0x80 :: List.replicate ((111 + 128 - msg.length % 128) % 128) 0 ++
    (List.replicate 8 0 ++ be8 (msg.length * 8))

/-- One step of the SHA-512 message-schedule extension (accumulator reversed). -/
def sha512ExtStep (acc : List Nat) : List Nat :=
  let w2 := acc.getD 1 0
  let w7 := acc.getD 6 0
  let w15 := acc.getD 14 0
  let w16 := acc.getD 15 0
  let s0 := ((rotr64 w15 1) ^^^ (rotr64 w15 8)) ^^^ (w15 >>> 7)
  let s1 := ((rotr64 w2 19) ^^^ (rotr64 w2 61)) ^^^ (w2 >>> 6)
  add64 (add64 w16 s0) (add64 w7 s1) :: acc

/-- The 80-word SHA-512 message schedule of one 16-word block. -/
def sha512Schedule (w16 : List Nat) : List Nat :=
  ((List.range 64).foldl (fun acc _ => sha512ExtStep acc) w16.reverse).reverse

/-- One SHA-512 round. -/
def sha512Round : Sha256State → Nat × Nat → Sha256State
  | (a, b, c, d, e, f, g, h), (k, w) =>
      let s1 := ((rotr64 e 14) ^^^ (rotr64 e 18)) ^^^ (rotr64 e 41)
      let ch := (e &&& f) ^^^ ((e ^^^ 0xFFFFFFFFFFFFFFFF) &&& g)
      let t1 := add64 (add64 h s1) (add64 ch (add64 k w))
      let s0 := ((rotr64 a 28) ^^^ (rotr64 a 34)) ^^^ (rotr64 a 39)
      let mj := ((a &&& b) ^^^ (a &&& c)) ^^^ (b &&& c)
      let t2 := add64 s0 mj
      (add64 t1 t2, a, b, c, add64 d t1, e, f, g)

/-- Big-endian 8-byte encoding of a 64-bit word (same as `be8`). -/
def be8w (n : Nat) : List Nat := be8 n

/-- SHA-512 compression of one 128-byte block. -/
def sha512Compress (h : Sha256State) (block : List Nat) : Sha256State :=
  match h, (sha512K.zip (sha512Schedule (bytesToWords64 block))).foldl sha512Round h with
  | (h0, h1, h2, h3, h4, h5, h6, h7), (a, b, c, d, e, f, g, hh) =>
      (add64 h0 a, add64 h1 b, add64 h2 c, add64 h3 d,
       add64 h4 e, add64 h5 f, add64 h6 g, add64 h7 hh)

/-- SHA-512 of a byte list, as a 64-byte list. -/
def sha512 (msg : List Nat) : List Nat :=
  let h := (chunksGo 128 (mdPad128 msg).length (mdPad128 msg)).foldl sha512Compress
      (0x6A09E667F3BCC908, 0xBB67AE8584CAA73B, 0x3C6EF372FE94F82B, 0xA54FF53A5F1D36F1,
       0x510E527FADE682D1, 0x9B05688C2B3E6C1F, 0x1F83D9ABFB41BD6B, 0x5BE0CD19137E2179)
  be8w h.1 ++ be8w h.2.1 ++ be8w h.2.2.1 ++ be8w h.2.2.2.1 ++
    be8w h.2.2.2.2.1 ++ be8w h.2.2.2.2.2.1 ++ be8w h.2.2.2.2.2.2.1 ++ be8w h.2.2.2.2.2.2.2

/-! ## HMAC (RFC 2104) -/

/-- HMAC over an arbitrary hash with the given block size. -/
def hmacGeneric (hash : List Nat → List Nat) (blockSize : Nat) (key msg : List Nat) : List Nat :=
  let k0 := if blockSize < key.length then hash key else key
  let kp := k0 ++ List.replicate (blockSize - k0.length) 0
  hash ((kp.map (fun b => b ^^^ 0x5C)) ++ hash ((kp.map (fun b => b ^^^ 0x36)) ++ msg))

/-- The HMAC hash algorithms supported by the provisioning parser (spec §3). -/
inductive HashAlg where
  | sha1
  | sha256
  | sha512
deriving DecidableEq

/-- HMAC dispatch on the algorithm of a `TotpSpec`. -/
def hmacBytes : HashAlg → List Nat → List Nat → List Nat
  | .sha1, key, msg => hmacGeneric sha1 64 key msg
  | .sha256, key, msg => hmacGeneric sha256 64 key msg
  | .sha512, key, msg => hmacGeneric sha512 128 key msg

/-! ## Base32 decoding (RFC 4648)

Modelled from the spec: the `otpauth` library's base32 secret decoder is not
part of the repository; spec §4.2 says the parser "decodes the secret from
base32" and "fails with `InvalidSecretError` if the alphabet or padding is
malformed". -/

/-- Value of one base32 alphabet character (case-insensitive), `none` if the
character is outside the RFC 4648 alphabet. -/
def base32Val (c : Char) : Option Nat :=
  let n := c.toNat
  if 65 ≤ n ∧ n ≤ 90 then some (n - 65)
  else if 97 ≤ n ∧ n ≤ 122 then some (n - 97)
  else if 50 ≤ n ∧ n ≤ 55 then some (n - 50 + 26)
  else none

/-- Accumulate the 5-bit groups of a base32 body into bytes.  Returns an error
message at the first character outside the alphabet. -/
def base32Go : List Char → Nat → Nat → List Nat → Except String (List Nat)
  | [], _, _, out => .ok out.reverse
  | c :: rest, bits, acc, out =>
      match base32Val c with
      | none => .error "Invalid base32 character in secret"
      | some v =>
          let acc2 := (acc <<< 5) ||| v
          let bits2 := bits + 5
          if 8 ≤ bits2 then base32Go rest (bits2 - 8) acc2 (((acc2 >>> (bits2 - 8)) % 256) :: out)
          else base32Go rest bits2 acc2 out

/-- Base32 decode of a secret string: trailing `=` padding is allowed when it
completes an 8-character quantum; `=` anywhere else, an impossible padding
length, or a non-alphabet character is malformed. -/
def base32Decode (s : String) : Except String (List Nat) :=
  let body := s.data.takeWhile (fun c => c != '=')
  let pad := s.data.dropWhile (fun c => c != '=')
  if !(pad.all (fun c => c == '=')) then .error "Invalid base32 padding in secret"
  else if pad.length ≠ 0 ∧
      ((body.length + pad.length) % 8 ≠ 0 ∨ ¬(pad.length = 1 ∨ pad.length = 3 ∨ pad.length = 4 ∨ pad.length = 6)) then
    .error "Invalid base32 padding in secret"
  else base32Go body 0 0 []

/-! ## Decimal rendering and zero-padding of codes -/

/-- Little-endian decimal digits of `n` (empty for `0`), with explicit fuel;
`toDigitsRev n n` is fully applied. -/
def toDigitsRevFuel : Nat → Nat → List Nat
  | 0, _ => []
  | fuel + 1, n => if n = 0 then [] else n % 10 :: toDigitsRevFuel fuel (n / 10)

/-- The decimal digit characters of `n` (most significant first; empty for 0). -/
def decimalChars (n : Nat) : List Char :=
  ((toDigitsRevFuel n n).reverse).map (fun d => Char.ofNat (48 + d))

/-- Left-pad the decimal rendering of `n < 10^digits` with `'0'` to exactly
`digits` characters (spec §4.3: "left-pad with zeros to exactly `digits`
characters"). -/
def padCode (digits n : Nat) : String :=
  ⟨List.replicate (digits - (decimalChars n).length) '0' ++ decimalChars n⟩

/-! ## The TOTP data model and code derivation

Modelled from the spec: the generator and validator live in the `otpauth`
library, which is not part of the repository; they are modelled from spec
§4.3–§4.4 (RFC 6238 derivation, nearest-first window search). -/

/-- Parsed, immutable TOTP parameter set (spec §3). -/
structure TotpSpec where
  secret : List Nat
  algorithm : HashAlg
  digits : Nat
  period : Nat
  label : String
  issuer : String
deriving DecidableEq

/-- Spec §3 invariant: `digits ∈ [1,10]`, `period > 0`, `secret` non-empty. -/
def ValidSpec (s : TotpSpec) : Prop :=
  1 ≤ s.digits ∧ s.digits ≤ 10 ∧ 0 < s.period ∧ s.secret ≠ []

instance (s : TotpSpec) : Decidable (ValidSpec s) := by
  unfold ValidSpec; infer_instance

/-- RFC 4226 dynamic truncation: low 4 bits of the last byte give the offset,
4 bytes are extracted there, the top bit is masked. -/
def dynamicTruncate (mac : List Nat) : Nat :=
  let offset := (mac.getD (mac.length - 1) 0) &&& 0xF
  ((((mac.getD offset 0) &&& 0x7F) <<< 24) ||| ((mac.getD (offset + 1) 0) <<< 16)) |||
    (((mac.getD (offset + 2) 0) <<< 8) ||| (mac.getD (offset + 3) 0))

/-- The HOTP code of a counter value: HMAC of the 8-byte big-endian counter,
dynamic truncation, reduction modulo `10^digits`, zero-padding. -/
def hotpCode (spec : TotpSpec) (counter : Nat) : String :=
  padCode spec.digits (dynamicTruncate (hmacBytes spec.algorithm spec.secret (be8 counter)) % 10 ^ spec.digits)

/-- The time step of a Unix-millisecond instant: `floor(floor(t/1000)/period)`
(spec §4.3: `counter = floor(unixSeconds(instant) / period)`). -/
def stepOf (spec : TotpSpec) (tMs : Nat) : Nat := tMs / 1000 / spec.period

/-- TOTP generation at a Unix-millisecond instant. -/
def totpGenerate (spec : TotpSpec) (tMs : Nat) : String := hotpCode spec (stepOf spec tMs)

/-- The step offsets `±1, ±2, …, ±w` in nearest-first order, negative first. -/
def offsetsAux : Nat → List Int
  | 0 => []
  | k + 1 => offsetsAux k ++ [-(k + 1 : Int), (k + 1 : Int)]

/-- The full nearest-first check order `0, -1, +1, …, -w, +w` (spec §4.4). -/
def offsetsList (w : Nat) : List Int := 0 :: offsetsAux w

/-- Windowed TOTP validation: reject a token whose length differs from
`digits`; otherwise return the first offset (nearest-first) whose code equals
the token, as the signed step delta.  A candidate step below zero never
matches (negative instants are outside the model). -/
def totpValidate (spec : TotpSpec) (token : String) (window : Nat) (tMs : Nat) : Option Int :=
  if token.length ≠ spec.digits then none
  else
    let c := stepOf spec tMs
    (offsetsList window).find? (fun i =>
      decide (0 ≤ (c : Int) + i) && (hotpCode spec ((c : Int) + i).toNat == token))

/-! ## The `OTP` wrapper (src/framework/security/otp.ts) -/

/-- JavaScript `\s` (and `String.trim`) whitespace, by code point. -/
def isJsWs (c : Char) : Bool :=
  let n := c.toNat
  n == 32 || (9 ≤ n && n ≤ 13) || n == 160 || n == 0x1680 ||
    (0x2000 ≤ n && n ≤ 0x200A) || n == 0x2028 || n == 0x2029 ||
    n == 0x202F || n == 0x205F || n == 0x3000 || n == 0xFEFF

/-- JavaScript `String.prototype.trim`. -/
def jsTrim (s : String) : String :=
  ⟨((s.data.dropWhile isJsWs).reverse.dropWhile isJsWs).reverse⟩

/-- Full-width digit (U+FF10–U+FF19) to ASCII digit, as in `normalizeToken`'s
regex replace (otp.ts line 101). -/
def fullwidthFix (c : Char) : Char :=
  if 0xFF10 ≤ c.toNat ∧ c.toNat ≤ 0xFF19 then Char.ofNat (c.toNat - 0xFF10 + 0x30) else c

/-- ASCII letter upper-casing (model of `String.prototype.toUpperCase` on the
characters relevant here). -/
def upperAscii (c : Char) : Char :=
  if 97 ≤ c.toNat ∧ c.toNat ≤ 122 then Char.ofNat (c.toNat - 32) else c

/-- `normalizeToken` (otp.ts lines 99–103): full-width digits to ASCII, then
remove all whitespace (`replace(/\s+/g, "")`), then upper-case. -/
def normalizeToken (s : String) : String :=
  ⟨((s.data.map fullwidthFix).filter (fun c => !isJsWs c)).map upperAscii⟩

/-- The structured result of `verify` (otp.ts lines 112–121). -/
structure VerificationResult where
  ok : Bool
  delta : Option Int
  reason : Option String
deriving DecidableEq

/-- JavaScript truthiness of the optional `timestamp` argument of `getCode`
(otp.ts line 90): absent or `0` is falsy. -/
def tsTruthy : Option Nat → Bool
  | none => false
  | some n => n != 0

/-- `getCode` at the `TotpSpec` level (otp.ts lines 88–91): a truthy timestamp
is used, otherwise the current time `now`. -/
def generateCode (spec : TotpSpec) (now : Nat) (timestamp : Option Nat) : String :=
  if tsTruthy timestamp then totpGenerate spec (timestamp.getD 0) else totpGenerate spec now

/-- `verify` at the `TotpSpec` level (otp.ts lines 117–136): empty (falsy) raw
code is rejected before normalization; otherwise the normalized token is
validated at `timestamp` (defaulting to `now` only when absent). -/
def verifyCode (spec : TotpSpec) (now : Nat) (code : String) (window : Nat)
    (timestamp : Option Nat) : VerificationResult :=
  if code = "" then ⟨false, none, some "Empty or non-string code"⟩
  else
    let token := normalizeToken code
    let delta := totpValidate spec token window (timestamp.getD now)
    ⟨delta.isSome, delta, if delta.isSome then none else some "Invalid or out-of-window token"⟩

/-! ## Error taxonomy (spec §7) and the provisioning-string parser (spec §4.2)

Modelled from the spec: `OTPAuth.URI.parse` is not part of the repository.
The parser follows §4.2: scheme `otpauth://`, a type segment that must be
`totp` (`UnsupportedTypeError` otherwise), a label, and query parameters
`secret` (required, base32, `InvalidSecretError` when malformed), `algorithm`
(default SHA1), `digits` (default 6), `period` (default 30); any other
structural violation is a `MalformedConfigurationError`.  Percent-decoding of
labels is not modelled. -/

/-- The error taxonomy of spec §7. -/
inductive OtpError where
  | configurationError (msg : String)
  | invalidSecret (msg : String)
  | malformedConfiguration (msg : String)
  | unsupportedType (msg : String)
deriving DecidableEq

deriving instance DecidableEq for Except

/-- Key lookup in an association list (used for query parameters and for the
environment store). -/
def assocLookup (m : List (String × String)) (k : String) : Option String :=
  (m.find? (fun p => p.1 == k)).map (fun p => p.2)

/-- Split a character list on a separator character. -/
def splitChar (sep : Char) : List Char → List (List Char)
  | [] => [[]]
  | c :: rest =>
      match splitChar sep rest with
      | [] => if c == sep then [[], []] else [[c]]
      | h :: t => if c == sep then [] :: h :: t else (c :: h) :: t

/-- Parse a `k=v&k=v` query string into an association list. -/
def parseParams (q : List Char) : List (String × String) :=
  (splitChar '&' q).map (fun kv =>
    (⟨kv.takeWhile (fun c => c != '=')⟩, ⟨(kv.dropWhile (fun c => c != '=')).drop 1⟩))

/-- Parse a non-empty all-digit character list as a `Nat`. -/
def parseNatStrict (l : List Char) : Option Nat :=
  if l ≠ [] ∧ l.all (fun c => 48 ≤ c.toNat && c.toNat ≤ 57) then
    some (l.foldl (fun a c => a * 10 + (c.toNat - 48)) 0)
  else none

/-- ASCII lower-casing of one character. -/
def lowerAscii (c : Char) : Char :=
  if 65 ≤ c.toNat ∧ c.toNat ≤ 90 then Char.ofNat (c.toNat + 32) else c

/-- The algorithm token of the `algorithm` query parameter. -/
def parseAlg (s : String) : Option HashAlg :=
  if s = "SHA1" then some .sha1
  else if s = "SHA256" then some .sha256
  else if s = "SHA512" then some .sha512
  else none

/-- Decompose `otpauth://TYPE/LABEL?QUERY` into type, label and parameters. -/
def uriParts (uri : String) : Option (String × String × List (String × String)) :=
  let cs := uri.data
  if cs.take 10 ≠ "otpauth://".data then none
  else
    let rest := cs.drop 10
    let ty := rest.takeWhile (fun c => c != '/')
    let rest2 := (rest.dropWhile (fun c => c != '/')).drop 1
    let lbl := rest2.takeWhile (fun c => c != '?')
    let query := (rest2.dropWhile (fun c => c != '?')).drop 1
    some (⟨ty⟩, ⟨lbl⟩, parseParams query)

/-- The digits/period parameter with its default: absent means the default,
present-but-non-numeric is malformed. -/
def numParam (ps : List (String × String)) (name : String) (dflt : Nat) : Except OtpError Nat :=
  match assocLookup ps name with
  | none => .ok dflt
  | some v =>
      match parseNatStrict v.data with
      | some n => .ok n
      | none => .error (.malformedConfiguration ("Non-numeric " ++ name))

/-- Parse a provisioning string into a `TotpSpec` (spec §4.2).  Pure: the same
string always yields the same `TotpSpec` or the same error. -/
def parseOtpAuthUri (uri : String) : Except OtpError TotpSpec :=
  match uriParts uri with
  | none => .error (.malformedConfiguration "Invalid otpauth scheme")
  | some (ty, lbl, ps) =>
      if ⟨ty.data.map lowerAscii⟩ ≠ ("totp" : String) then
        .error (.unsupportedType "Not a TOTP configuration")
      else
        match assocLookup ps "secret" with
        | none => .error (.malformedConfiguration "Missing secret")
        | some s =>
            match base32Decode s with
            | .error m => .error (.invalidSecret m)
            | .ok bytes =>
                if bytes = [] then .error (.invalidSecret "Empty secret")
                else
                  match parseAlg ((assocLookup ps "algorithm").getD "SHA1") with
                  | none => .error (.malformedConfiguration "Unknown algorithm")
                  | some alg =>
                      match numParam ps "digits" 6 with
                      | .error e => .error e
                      | .ok digits =>
                          match numParam ps "period" 30 with
                          | .error e => .error e
                          | .ok period =>
                              .ok ⟨bytes, alg, digits, period, lbl, (assocLookup ps "issuer").getD ""⟩

/-! ## The `Env` configuration store (src/framework/env/env.ts)

`Env.cache` (env.ts line 56) is a snapshot `{ ...process.env }` taken once at
startup; every lookup reads this snapshot, never the live `process.env`.  The
snapshot is a parameter of each operation below. -/

/-- `Env.get(key)` with the defaults used by `Env.getString(key)` (`required =
true`, `trim = true`, no parser), env.ts lines 111–173: a missing or
empty-string variable throws; otherwise the raw value is trimmed (a
whitespace-only value therefore trims to the empty string and is returned). -/
def envGetString (snapshot : List (String × String)) (key : String) : Except OtpError String :=
  match assocLookup snapshot key with
  | none => .error (.configurationError ("Missing environment variable: " ++ key))
  | some raw =>
      if raw = "" then .error (.configurationError ("Missing environment variable: " ++ key))
      else .ok (jsTrim raw)

/-! ## The `OTP` engine instance (src/framework/security/otp.ts) -/

/-- The `OTP` class state: the constructor arguments and the cached parsed
`TOTP` instance (`this.totp`). -/
structure OTPInst where
  uri : Option String
  envKey : Option String
  totp : Option TotpSpec
deriving DecidableEq

/-- `OTP.fromEnv` (otp.ts lines 34–36). -/
def OTP.fromEnv (k : String) : OTPInst := ⟨none, some k, none⟩

/-- `OTP.fromUri` (otp.ts lines 41–43). -/
def OTP.fromUri (u : String) : OTPInst := ⟨some u, none, none⟩

/-- `OTP.getUri` (otp.ts lines 52–56): the trimmed literal URI when truthy and
non-blank, else the env variable, else an error. -/
def OTP.getUri (o : OTPInst) (snapshot : List (String × String)) : Except OtpError String :=
  if jsTrim (o.uri.getD "") ≠ "" then .ok (jsTrim (o.uri.getD ""))
  else
    match o.envKey with
    | some k => envGetString snapshot k
    | none => .error (.configurationError "OTP: No URI or envKey provided.")

/-- The `this.envKey ?? "direct"` tag used in `getTOTP`'s error messages. -/
def OTP.srcTag (o : OTPInst) : String := o.envKey.getD "direct"

/-- `getTOTP` wraps a parse failure in its own message (otp.ts lines 67–79),
keeping the spec-§7 error class. -/
def wrapParseError (tag : String) : OtpError → OtpError
  | .invalidSecret m => .invalidSecret ("OTP: Invalid otpauth URI (" ++ tag ++ "): " ++ m)
  | .malformedConfiguration m =>
      .malformedConfiguration ("OTP: Invalid otpauth URI (" ++ tag ++ "): " ++ m)
  | .unsupportedType _ =>
      .unsupportedType ("OTP: The provided URI (" ++ tag ++ ") is not a TOTP configuration.")
  | e => e

/-- `OTP.getTOTP` (otp.ts lines 62–83), value part: the cached spec if any,
otherwise resolve and parse. -/
def OTP.getTOTP (o : OTPInst) (snapshot : List (String × String)) : Except OtpError TotpSpec :=
  match o.totp with
  | some t => .ok t
  | none =>
      match OTP.getUri o snapshot with
      | .error e => .error e
      | .ok uri =>
          match parseOtpAuthUri uri with
          | .ok t => .ok t
          | .error e => .error (wrapParseError (OTP.srcTag o) e)

/-- The state after a call of `getTOTP`: on success `this.totp` holds the
parsed spec (otp.ts line 81); on a throw it is unchanged. -/
def OTP.afterGetTOTP (o : OTPInst) (snapshot : List (String × String)) : OTPInst :=
  { o with totp := (OTP.getTOTP o snapshot).toOption }

/-- `OTP.refresh` (otp.ts lines 150–152): clear the cached `TOTP` instance. -/
def OTP.refresh (o : OTPInst) : OTPInst := { o with totp := none }

/-- `OTP.getCode` (otp.ts lines 88–91). -/
def OTP.getCode (o : OTPInst) (snapshot : List (String × String)) (now : Nat)
    (timestamp : Option Nat) : Except OtpError String :=
  match OTP.getTOTP o snapshot with
  | .error e => .error e
  | .ok t => .ok (generateCode t now timestamp)

/-- `OTP.verify` (otp.ts lines 117–136): `getTOTP` first, then the
`TotpSpec`-level verification. -/
def OTP.verify (o : OTPInst) (snapshot : List (String × String)) (now : Nat) (code : String)
    (window : Nat) (timestamp : Option Nat) : Except OtpError VerificationResult :=
  match OTP.getTOTP o snapshot with
  | .error e => .error e
  | .ok t => .ok (verifyCode t now code window timestamp)

/-! ## Concrete fixtures for witnesses and counterexamples -/

/-- The golden provisioning string of spec §8's end-to-end scenario. -/
def goldenUri : String := "otpauth://totp/Test?secret=JBSWY3DPEHPK3PXP&algorithm=SHA1&digits=6&period=30"

/-- The `TotpSpec` of the golden provisioning string. -/
def goldenSpec : TotpSpec :=
  ⟨[72, 101, 108, 108, 111, 33, 222, 173, 190, 239], .sha1, 6, 30, "Test", ""⟩

/-- The known Unix time (milliseconds) of the golden scenario. -/
def goldenT : Nat := 1465324707000

/-- A second provisioning string (the RFC 6238 test secret), used for the
refresh scenario. -/
def otherUri : String :=
  "otpauth://totp/Test?secret=GEZDGNBVGY3TQOJQGEZDGNBVGY3TQOJQ&algorithm=SHA1&digits=6&period=30"

/-- The RFC 6238 reference derivation exactly as the specification words it
(spec §4.3 / claim C1): `counter = floor(unixSeconds(instant)/period)`; HMAC
of the counter as 8-byte big-endian; dynamic truncation (low 4 bits of the
last byte as offset, 4 bytes extracted, top bit masked, read as an unsigned
integer); reduce modulo `10^digits`; left-pad with zeros to exactly `digits`
characters.  Stated with `%`, `*` and `+` arithmetic rather than the bitwise
operations of the generator, to be compared against `totpGenerate`. -/
def rfc6238Ref (spec : TotpSpec) (tMs : Nat) : String :=
  let counter := (tMs / 1000) / spec.period
  let mac := hmacBytes spec.algorithm spec.secret (be8 counter)
  let offset := (mac.getD (mac.length - 1) 0) % 16
  let p := ((mac.getD offset 0) % 128) * 16777216 + (mac.getD (offset + 1) 0) * 65536 +
    ((mac.getD (offset + 2) 0) * 256 + mac.getD (offset + 3) 0)
  padCode spec.digits (p % 10 ^ spec.digits)

/-! # Theorems

First, validation of the modelled primitives against published test vectors
(FIPS 180-4 "abc" digests, the RFC 6238 appendix-B vector), then the lemma
layer, then one theorem per claim C1–C10 (with witnesses and
counterexamples). -/

set_option maxRecDepth 40000

/-- FIPS 180-4: SHA-1("abc"). -/
theorem sha1_abc : sha1 [97, 98, 99] =
    [0xa9, 0x99, 0x3e, 0x36, 0x47, 0x06, 0x81, 0x6a, 0xba, 0x3e,
     0x25, 0x71, 0x78, 0x50, 0xc2, 0x6c, 0x9c, 0xd0, 0xd8, 0x9d] := by decide

/-- FIPS 180-4: SHA-256("abc"). -/
theorem sha256_abc : sha256 [97, 98, 99] =
    [0xba, 0x78, 0x16, 0xbf, 0x8f, 0x01, 0xcf, 0xea, 0x41, 0x41, 0x40, 0xde, 0x5d, 0xae, 0x22, 0x23,
     0xb0, 0x03, 0x61, 0xa3, 0x96, 0x17, 0x7a, 0x9c, 0xb4, 0x10, 0xff, 0x61, 0xf2, 0x00, 0x15, 0xad] := by decide

/-- FIPS 180-4: SHA-512("abc"). -/
theorem sha512_abc : sha512 [97, 98, 99] =
    [0xdd, 0xaf, 0x35, 0xa1, 0x93, 0x61, 0x7a, 0xba, 0xcc, 0x41, 0x73, 0x49, 0xae, 0x20, 0x41, 0x31,
     0x12, 0xe6, 0xfa, 0x4e, 0x89, 0xa9, 0x7e, 0xa2, 0x0a, 0x9e, 0xee, 0xe6, 0x4b, 0x55, 0xd3, 0x9a,
     0x21, 0x92, 0x99, 0x2a, 0x27, 0x4f, 0xc1, 0xa8, 0x36, 0xba, 0x3c, 0x23, 0xa3, 0xfe, 0xeb, 0xbd,
     0x45, 0x4d, 0x44, 0x23, 0x64, 0x3c, 0xe8, 0x0e, 0x2a, 0x9a, 0xc9, 0x4f, 0xa5, 0x4c, 0xa4, 0x9f] := by decide

/-- RFC 6238 appendix B: the SHA-1 test secret at time 59 s (counter 1) with
8 digits yields "94287082". -/
theorem rfc6238_appendix_vector :
    hotpCode ⟨[49, 50, 51, 52, 53, 54, 55, 56, 57, 48, 49, 50, 51, 52, 53, 54, 55, 56, 57, 48],
      .sha1, 8, 30, "", ""⟩ 1 = "94287082" := by decide

/-! ## Lemma layer: digest bytes are bytes; bitwise vs arithmetic truncation -/

/-- Every entry of `be4` is a byte. -/
theorem be4_mem_lt {b x : Nat} (hb : b ∈ be4 x) : b < 256 := by
  simp only [be4, List.mem_cons, List.not_mem_nil, or_false] at hb
  rcases hb with rfl | rfl | rfl | rfl <;> omega

/-- Every entry of `be8` is a byte. -/
theorem be8_mem_lt {b x : Nat} (hb : b ∈ be8 x) : b < 256 := by
  simp only [be8, List.mem_cons, List.not_mem_nil, or_false] at hb
  rcases hb with rfl | rfl | rfl | rfl | rfl | rfl | rfl | rfl <;> omega

/-- Every output byte of SHA-1 is below 256. -/
theorem sha1_mem_lt {b : Nat} {msg : List Nat} (hb : b ∈ sha1 msg) : b < 256 := by
  simp only [sha1, List.mem_append] at hb
  rcases hb with ((((h | h) | h) | h) | h) <;> exact be4_mem_lt h

/-- Every output byte of SHA-256 is below 256. -/
theorem sha256_mem_lt {b : Nat} {msg : List Nat} (hb : b ∈ sha256 msg) : b < 256 := by
  simp only [sha256, List.mem_append] at hb
  rcases hb with (((((((h | h) | h) | h) | h) | h) | h) | h) <;> exact be4_mem_lt h

/-- Every output byte of SHA-512 is below 256. -/
theorem sha512_mem_lt {b : Nat} {msg : List Nat} (hb : b ∈ sha512 msg) : b < 256 := by
  simp only [sha512, be8w, List.mem_append] at hb
  rcases hb with (((((((h | h) | h) | h) | h) | h) | h) | h) <;> exact be8_mem_lt h

/-- Every output byte of an HMAC digest is below 256. -/
theorem hmacBytes_mem_lt {b : Nat} {alg : HashAlg} {key msg : List Nat}
    (hb : b ∈ hmacBytes alg key msg) : b < 256 := by
  cases alg <;> simp only [hmacBytes, hmacGeneric] at hb
  · exact sha1_mem_lt hb
  · exact sha256_mem_lt hb
  · exact sha512_mem_lt hb

/-- `getD` of a list of bytes with default 0 is below 256. -/
theorem getD_lt_of_bytes {l : List Nat} (h : ∀ b ∈ l, b < 256) (i : Nat) : l.getD i 0 < 256 := by
  rw [List.getD_eq_getElem?_getD]
  cases hg : l[i]? with
  | none => simp
  | some b => simpa using h b (List.getElem?_mem hg)

/-- Or of a multiple of `2^k` with a remainder below `2^k` is their sum. -/
theorem mulPow_lor_eq_add (x : Nat) {y k : Nat} (h : y < 2 ^ k) :
    (x * 2 ^ k) ||| y = x * 2 ^ k + y := by
  rw [Nat.mul_comm]
  exact (Nat.mul_add_lt_is_or h x).symm

/-- Shifted-or as multiply-add, when the low part fits below the shift. -/
theorem shiftLeft_lor_eq_add {b : Nat} (a : Nat) {k : Nat} (h : b < 2 ^ k) :
    (a <<< k) ||| b = a * 2 ^ k + b := by
  rw [Nat.shiftLeft_eq, Nat.mul_comm]
  exact (Nat.mul_add_lt_is_or h a).symm

set_option maxHeartbeats 1000000 in
/-- Dynamic truncation in the claim's arithmetic formulation: for a digest of
bytes, the bitwise extraction is the base-256 value of the 4 extracted bytes
with the top bit masked. -/
theorem dynamicTruncate_eq {mac : List Nat} (hm : ∀ b ∈ mac, b < 256) :
    dynamicTruncate mac =
      ((mac.getD ((mac.getD (mac.length - 1) 0) % 16) 0) % 128) * 16777216 +
        (mac.getD ((mac.getD (mac.length - 1) 0) % 16 + 1) 0) * 65536 +
        ((mac.getD ((mac.getD (mac.length - 1) 0) % 16 + 2) 0) * 256 +
          mac.getD ((mac.getD (mac.length - 1) 0) % 16 + 3) 0) := by
  have hpow4 : (2 : Nat) ^ 4 - 1 = 15 := by norm_num
  have hpow4e : (2 : Nat) ^ 4 = 16 := by norm_num
  have h15 := Nat.and_pow_two_sub_one_eq_mod (mac.getD (mac.length - 1) 0) 4
  rw [hpow4, hpow4e] at h15
  simp only [dynamicTruncate]
  rw [h15]
  set o := (mac.getD (mac.length - 1) 0) % 16 with ho
  have hpow7 : (2 : Nat) ^ 7 - 1 = 127 := by norm_num
  have hpow7e : (2 : Nat) ^ 7 = 128 := by norm_num
  have h127 := Nat.and_pow_two_sub_one_eq_mod (mac.getD o 0) 7
  rw [hpow7, hpow7e] at h127
  rw [h127]
  have hb1 : mac.getD (o + 1) 0 < 256 := getD_lt_of_bytes hm _
  have hb2 : mac.getD (o + 2) 0 < 256 := getD_lt_of_bytes hm _
  have hb3 : mac.getD (o + 3) 0 < 256 := getD_lt_of_bytes hm _
  set a := mac.getD o 0 % 128
  set b := mac.getD (o + 1) 0
  set c := mac.getD (o + 2) 0
  set d := mac.getD (o + 3) 0
  have hpow8 : (2 : Nat) ^ 8 = 256 := by norm_num
  have hpow16 : (2 : Nat) ^ 16 = 65536 := by norm_num
  have hpow24 : (2 : Nat) ^ 24 = 16777216 := by norm_num
  have e1 : (c <<< 8) ||| d = c * 2 ^ 8 + d := shiftLeft_lor_eq_add c (by rw [hpow8]; exact hb3)
  have e2 : (a <<< 24) ||| (b <<< 16) = (a * 2 ^ 8 + b) * 2 ^ 16 := by
    have hb' : b <<< 16 < 2 ^ 24 := by
      rw [Nat.shiftLeft_eq, hpow16, hpow24]
      omega
    rw [shiftLeft_lor_eq_add a hb', Nat.shiftLeft_eq]
    ring
  have e3 : ((a * 2 ^ 8 + b) * 2 ^ 16) ||| (c * 2 ^ 8 + d) =
      (a * 2 ^ 8 + b) * 2 ^ 16 + (c * 2 ^ 8 + d) := by
    refine mulPow_lor_eq_add _ ?_
    rw [hpow8, hpow16]
    omega
  rw [e1, e2, e3, hpow8, hpow16]
  ring

/-- The engine's generator computes exactly the claim's RFC 6238 reference
derivation, for every `TotpSpec` and instant. -/
theorem totpGenerate_eq_rfc6238Ref (spec : TotpSpec) (tMs : Nat) :
    totpGenerate spec tMs = rfc6238Ref spec tMs := by
  simp only [totpGenerate, rfc6238Ref, hotpCode, stepOf]
  rw [dynamicTruncate_eq (fun b hb => hmacBytes_mem_lt hb)]

/-! ## Lemma layer: decimal rendering, padding, and token normalization -/

/-- With enough fuel, a value below `10^k` has at most `k` decimal digits. -/
theorem toDigitsRevFuel_length_le {f n k : Nat} (hf : n ≤ f) (hn : n < 10 ^ k) :
    (toDigitsRevFuel f n).length ≤ k := by
  induction f generalizing n k with
  | zero => simp [toDigitsRevFuel]
  | succ f ih =>
      by_cases h0 : n = 0
      · simp [toDigitsRevFuel, h0]
      · simp only [toDigitsRevFuel, h0, if_false, List.length_cons]
        cases k with
        | zero => omega
        | succ k =>
            have hdiv : n / 10 < 10 ^ k := by
              rw [Nat.div_lt_iff_lt_mul (by norm_num)]
              calc n < 10 ^ (k + 1) := hn
                _ = 10 ^ k * 10 := by ring
            have hfuel : n / 10 ≤ f := by
              have := Nat.div_lt_self (Nat.pos_of_ne_zero h0) (by norm_num : 1 < 10)
              omega
            have := ih hfuel hdiv
            omega

/-- Every decimal digit produced by `toDigitsRevFuel` is below 10. -/
theorem toDigitsRevFuel_mem_lt {f n d : Nat} (hd : d ∈ toDigitsRevFuel f n) : d < 10 := by
  induction f generalizing n with
  | zero => simp [toDigitsRevFuel] at hd
  | succ f ih =>
      by_cases h0 : n = 0
      · simp [toDigitsRevFuel, h0] at hd
      · simp only [toDigitsRevFuel, h0, if_false, List.mem_cons] at hd
        rcases hd with rfl | hd
        · exact Nat.mod_lt _ (by norm_num)
        · exact ih hd

/-- The characters of `decimalChars` are ASCII digits `'0'`–`'9'`. -/
theorem decimalChars_mem {n : Nat} {c : Char} (hc : c ∈ decimalChars n) :
    ∃ d, d < 10 ∧ c = Char.ofNat (48 + d) := by
  simp only [decimalChars, List.mem_map, List.mem_reverse] at hc
  obtain ⟨d, hd, rfl⟩ := hc
  exact ⟨d, toDigitsRevFuel_mem_lt hd, rfl⟩

/-- An ASCII digit character is untouched by the full-width fix, the
whitespace filter, and the upper-casing of `normalizeToken`. -/
theorem digitChar_norm_stable {d : Nat} (hd : d < 10) :
    fullwidthFix (Char.ofNat (48 + d)) = Char.ofNat (48 + d) ∧
      isJsWs (Char.ofNat (48 + d)) = false ∧
      upperAscii (Char.ofNat (48 + d)) = Char.ofNat (48 + d) := by
  interval_cases d <;> exact ⟨by decide, by decide, by decide⟩

/-- `normalizeToken`'s character pipeline fixes any string of stable characters. -/
theorem normPipeline_fixes {l : List Char}
    (h : ∀ c ∈ l, fullwidthFix c = c ∧ isJsWs c = false ∧ upperAscii c = c) :
    ((l.map fullwidthFix).filter (fun c => !isJsWs c)).map upperAscii = l := by
  induction l with
  | nil => rfl
  | cons c l ih =>
      obtain ⟨h1, h2, h3⟩ := h c (List.mem_cons_self c l)
      simp only [List.map_cons, h1, List.filter_cons, h2, Bool.not_false, if_true, h3]
      exact congrArg (c :: ·) (ih (fun c hc => h c (List.mem_cons_of_mem _ hc)))

/-- Every character of a padded code is an ASCII digit-like stable character. -/
theorem padCode_chars_stable {digits n : Nat} {c : Char}
    (hc : c ∈ (padCode digits n).data) :
    fullwidthFix c = c ∧ isJsWs c = false ∧ upperAscii c = c := by
  simp only [padCode, List.mem_append, List.mem_replicate] at hc
  rcases hc with ⟨-, rfl⟩ | hc
  · exact ⟨by decide, by decide, by decide⟩
  · obtain ⟨d, hd, rfl⟩ := decimalChars_mem hc
    exact digitChar_norm_stable hd

/-- `normalizeToken` is the identity on generated codes. -/
theorem normalizeToken_padCode (digits n : Nat) :
    normalizeToken (padCode digits n) = padCode digits n := by
  simp only [normalizeToken]
  rw [normPipeline_fixes (fun c hc => padCode_chars_stable hc)]

/-- A padded code of a value below `10^digits` has exactly `digits` characters. -/
theorem padCode_length {digits n : Nat} (hn : n < 10 ^ digits) :
    (padCode digits n).length = digits := by
  have hlen : (decimalChars n).length ≤ digits := by
    simp only [decimalChars, List.length_map, List.length_reverse]
    exact toDigitsRevFuel_length_le (le_refl n) hn
  simp only [padCode, String.length, List.length_append, List.length_replicate]
  omega

/-- A HOTP code always has exactly `digits` characters (spec §4.3 digit padding). -/
theorem hotpCode_length (spec : TotpSpec) (counter : Nat) :
    (hotpCode spec counter).length = spec.digits := by
  unfold hotpCode
  exact padCode_length (Nat.mod_lt _ (Nat.pos_pow_of_pos _ (by norm_num)))

/-- `normalizeToken` fixes every HOTP code. -/
theorem normalizeToken_hotpCode (spec : TotpSpec) (counter : Nat) :
    normalizeToken (hotpCode spec counter) = hotpCode spec counter := by
  unfold hotpCode
  exact normalizeToken_padCode _ _

/-- With at least one digit, a HOTP code is a non-empty string. -/
theorem hotpCode_ne_empty (spec : TotpSpec) (counter : Nat) (hd : 1 ≤ spec.digits) :
    hotpCode spec counter ≠ "" := by
  intro h
  have := hotpCode_length spec counter
  rw [h] at this
  simp [String.length] at this
  omega

/-! ## Lemma layer: window offsets, find?, and time-step arithmetic -/

/-- Membership in the `±1, …, ±w` part of the check order. -/
theorem mem_offsetsAux {w : Nat} {i : Int} :
    i ∈ offsetsAux w ↔ (1 ≤ i.natAbs ∧ i.natAbs ≤ w) := by
  induction w with
  | zero => simp only [offsetsAux, List.not_mem_nil, false_iff]; omega
  | succ w ih =>
      simp only [offsetsAux, List.mem_append, ih, List.mem_cons, List.not_mem_nil, or_false]
      omega

/-- Membership in the full nearest-first check order is exactly `|i| ≤ w`. -/
theorem mem_offsetsList {w : Nat} {i : Int} : i ∈ offsetsList w ↔ i.natAbs ≤ w := by
  simp only [offsetsList, List.mem_cons, mem_offsetsAux]
  omega

/-- `find?` returns the unique element satisfying the predicate. -/
theorem listFindUniqueEq {α : Type} {l : List α} {p : α → Bool} {d : α} (hmem : d ∈ l)
    (hu : ∀ x ∈ l, p x = true ↔ x = d) : l.find? p = some d := by
  induction l with
  | nil => simp at hmem
  | cons a t ih =>
      cases hpa : p a with
      | true =>
          rw [List.find?_cons_of_pos _ hpa]
          exact congrArg some ((hu a (List.mem_cons_self a t)).mp hpa)
      | false =>
          rw [List.find?_cons_of_neg _ (by simp [hpa])]
          have had : a ≠ d := by
            intro h
            have htrue := (hu a (List.mem_cons_self a t)).mpr h
            rw [hpa] at htrue
            exact Bool.false_ne_true htrue
          have hmem' : d ∈ t := by
            rcases List.mem_cons.mp hmem with h | h
            · exact absurd h.symm had
            · exact h
          exact ih hmem' (fun x hx => hu x (List.mem_cons_of_mem _ hx))

/-- Shifting an instant by `d` whole periods (in milliseconds) shifts its time
step by `d`, and the shifted step is non-negative. -/
theorem stepOf_shift (spec : TotpSpec) (hp : 0 < spec.period) (t : Nat) (d : Int)
    (h : 0 ≤ (t : Int) + d * (1000 * spec.period)) :
    0 ≤ (stepOf spec t : Int) + d ∧
      stepOf spec (((t : Int) + d * (1000 * spec.period)).toNat) =
        ((stepOf spec t : Int) + d).toNat := by
  set P : Nat := 1000 * spec.period with hPdef
  have hP : 0 < P := by positivity
  have hPc : (1000 : Int) * (spec.period : Int) = (P : Int) := by rw [hPdef]; push_cast; ring
  rw [hPc] at h ⊢
  have hstep : ∀ u : Nat, stepOf spec u = u / P := fun u => by
    rw [stepOf, Nat.div_div_eq_div_mul]
  set c : Nat := t / P with hcdef
  set r : Nat := t % P with hrdef
  have hcr : P * c + r = t := Nat.div_add_mod t P
  have hr : r < P := Nat.mod_lt _ hP
  have hPi : (0 : Int) < (P : Int) := by exact_mod_cast hP
  have ht : (t : Int) = (P : Int) * (c : Int) + (r : Int) := by exact_mod_cast hcr.symm
  have hsum : (t : Int) + d * P = ((c : Int) + d) * P + r := by rw [ht]; ring
  have hcd : 0 ≤ (c : Int) + d := by
    by_contra hneg
    push_neg at hneg
    have h1 : (c : Int) + d ≤ -1 := by omega
    have h2 : ((c : Int) + d) * P ≤ -1 * P := mul_le_mul_of_nonneg_right h1 (le_of_lt hPi)
    have hri : (r : Int) < P := by exact_mod_cast hr
    rw [hsum] at h
    linarith
  constructor
  · rw [hstep t]; exact hcd
  · set e : Nat := ((c : Int) + d).toNat with hedef
    have he : (e : Int) = (c : Int) + d := Int.toNat_of_nonneg hcd
    have hcast : (t : Int) + d * P = ((e * P + r : Nat) : Int) := by
      push_cast [he]
      rw [hsum]
    rw [hcast, Int.toNat_natCast, hstep, Nat.mul_comm e P, Nat.mul_add_div hP,
      Nat.div_eq_of_lt hr, Nat.add_zero]
    rw [hstep t]

/-- Windowed validation of a generated code: with pairwise-distinct codes in
the window, the code of step `c + d` validates at an instant of step `c` with
delta `d` exactly when `|d| ≤ window` (spec §4.4 nearest-first search). -/
theorem totpValidate_code (spec : TotpSpec) (t : Nat) (window : Nat) (d : Int)
    (hcd : 0 ≤ (stepOf spec t : Int) + d)
    (hdist : ∀ i ∈ Finset.Icc (-(window : Int)) (window : Int), i ≠ d →
      hotpCode spec (((stepOf spec t : Int) + i).toNat) ≠
        hotpCode spec (((stepOf spec t : Int) + d).toNat)) :
    totpValidate spec (hotpCode spec (((stepOf spec t : Int) + d).toNat)) window t =
      if d.natAbs ≤ window then some d else none := by
  simp only [totpValidate]
  rw [if_neg (fun hne => hne (hotpCode_length spec _))]
  by_cases hcase : d.natAbs ≤ window
  · rw [if_pos hcase]
    refine listFindUniqueEq (mem_offsetsList.mpr hcase) ?_
    intro x hx
    constructor
    · intro hpx
      simp only [Bool.and_eq_true, decide_eq_true_eq, beq_iff_eq] at hpx
      by_contra hxd
      exact hdist x (Finset.mem_Icc.mpr (by have := mem_offsetsList.mp hx; omega)) hxd hpx.2
    · rintro rfl
      rw [Bool.and_eq_true, decide_eq_true_eq, beq_iff_eq]
      exact ⟨hcd, rfl⟩
  · rw [if_neg hcase]
    rw [List.find?_eq_none]
    intro x hx hpx
    simp only [Bool.and_eq_true, decide_eq_true_eq, beq_iff_eq] at hpx
    have hxw : x.natAbs ≤ window := mem_offsetsList.mp hx
    exact hdist x (Finset.mem_Icc.mpr (by omega)) (by omega) hpx.2

/-- `verifyCode` on a generated code, under the same distinctness proviso. -/
theorem verifyCode_code (spec : TotpSpec) (now t : Nat) (window : Nat) (d : Int)
    (hd1 : 1 ≤ spec.digits)
    (hcd : 0 ≤ (stepOf spec t : Int) + d)
    (hdist : ∀ i ∈ Finset.Icc (-(window : Int)) (window : Int), i ≠ d →
      hotpCode spec (((stepOf spec t : Int) + i).toNat) ≠
        hotpCode spec (((stepOf spec t : Int) + d).toNat)) :
    verifyCode spec now (hotpCode spec (((stepOf spec t : Int) + d).toNat)) window (some t) =
      if d.natAbs ≤ window then ⟨true, some d, none⟩
      else ⟨false, none, some "Invalid or out-of-window token"⟩ := by
  have hv := totpValidate_code spec t window d hcd hdist
  simp only [verifyCode, if_neg (hotpCode_ne_empty spec _ hd1), normalizeToken_hotpCode,
    Option.getD_some, hv]
  by_cases hcase : d.natAbs ≤ window
  · simp [hcase]
  · simp [hcase]

/-! ## Claim theorems -/

/-- C1 (amended: for nonzero instants — an explicit timestamp `0` is falsy in
`getCode` and falls back to the current time, see C10): for every engine whose
configuration resolves and parses to `spec` and every instant `t ≠ 0`,
`getCode(t)` is exactly the RFC 6238 reference derivation of the claim's
wording at `t`. -/
theorem c1_getCode_matches_rfc6238 (o : OTPInst) (env : List (String × String))
    (spec : TotpSpec) (now t : Nat)
    (hspec : OTP.getTOTP o env = .ok spec) (ht : t ≠ 0) :
    OTP.getCode o env now (some t) = .ok (rfc6238Ref spec t) := by
  simp only [OTP.getCode, hspec]
  simp only [generateCode, tsTruthy, Option.getD_some]
  rw [if_pos (by simpa using ht), totpGenerate_eq_rfc6238Ref]

/-- Witness for C1: the golden engine (spec §8) parses to `goldenSpec`, and at
the known instant `goldenT` the generated code is the reference derivation,
whose value is the golden vector `"341128"`. -/
theorem c1_getCode_matches_rfc6238_witness :
    OTP.getTOTP (OTP.fromUri goldenUri) [] = .ok goldenSpec ∧ goldenT ≠ 0 ∧
      OTP.getCode (OTP.fromUri goldenUri) [] 0 (some goldenT) =
        .ok (rfc6238Ref goldenSpec goldenT) ∧
      rfc6238Ref goldenSpec goldenT = "341128" :=
  ⟨by decide, by decide,
    c1_getCode_matches_rfc6238 (OTP.fromUri goldenUri) [] goldenSpec 0 goldenT
      (by decide) (by decide), by decide⟩

/-- Counterexample to C1 as stated ("for every instant t"): at the explicit
instant `0`, `getCode` returns the code of the current wall-clock time
(`341128` at `goldenT`), not the reference derivation at instant `0`
(`282760`). -/
theorem c1_epoch_counterexample :
    OTP.getCode (OTP.fromUri goldenUri) [] goldenT (some 0) = .ok "341128" ∧
      rfc6238Ref goldenSpec 0 = "282760" ∧ ("341128" : String) ≠ "282760" :=
  ⟨by decide, by decide, by decide⟩

/-- C10: an explicit timestamp `0` is falsy in `getCode`'s
`timestamp ? generate({timestamp}) : generate()` (otp.ts line 90), so
`getCode(0)` behaves exactly like `getCode()` — it generates for the current
wall-clock time (`goldenT` here), not for instant 0. -/
theorem c10_zero_timestamp_acts_as_now :
    (∀ (o : OTPInst) (env : List (String × String)) (now : Nat),
        OTP.getCode o env now (some 0) = OTP.getCode o env now none) ∧
      OTP.getCode (OTP.fromUri goldenUri) [] goldenT (some 0) =
        .ok (totpGenerate goldenSpec goldenT) ∧
      totpGenerate goldenSpec goldenT ≠ totpGenerate goldenSpec 0 := by
  refine ⟨fun o env now => ?_, by decide, by decide⟩
  simp only [OTP.getCode]
  cases OTP.getTOTP o env with
  | error e => rfl
  | ok spec => rfl

/-- C2 (code bug): `Env.cache` is a startup snapshot of `process.env`
(env.ts line 56), so `refresh()` re-resolves against the same snapshot:
a cached engine never consults the environment; a refreshed engine resolves
from the startup snapshot again and still produces the startup value's code
(`341128`), not the code of a changed value (`136950` for `otherUri`). -/
theorem c2_refresh_uses_startup_snapshot :
    (∀ (u k : Option String) (spec : TotpSpec) (env : List (String × String))
        (now : Nat) (ts : Option Nat),
        OTP.getCode ⟨u, k, some spec⟩ env now ts = .ok (generateCode spec now ts)) ∧
      (∀ (o : OTPInst) (env : List (String × String)) (now : Nat) (ts : Option Nat),
        OTP.getCode (OTP.refresh o) env now ts =
          OTP.getCode ⟨o.uri, o.envKey, none⟩ env now ts) ∧
      OTP.getCode (OTP.refresh (OTP.afterGetTOTP (OTP.fromEnv "OTP_URI")
          [("OTP_URI", goldenUri)])) [("OTP_URI", goldenUri)] 0 (some goldenT) = .ok "341128" ∧
      (parseOtpAuthUri otherUri).toOption.map (fun s => totpGenerate s goldenT) =
        some "136950" ∧
      ("341128" : String) ≠ "136950" :=
  ⟨fun u k spec env now ts => rfl, fun o env now ts => rfl, by decide, by decide, by decide⟩

/-- Counterexample to C3 as stated: a whitespace-only environment value passes
`Env.get`'s emptiness check, trims to the empty string, and is returned
successfully — the resolver does not fail although the key yields no
non-empty string. -/
theorem c3_whitespace_env_counterexample :
    OTP.getUri (OTP.fromEnv "K") [("K", "   ")] = .ok "" ∧
      ∀ m, OTP.getUri (OTP.fromEnv "K") [("K", "   ")] ≠
        .error (.configurationError m) := by
  refine ⟨by decide, fun m h => ?_⟩
  rw [(by decide : OTP.getUri (OTP.fromEnv "K") [("K", "   ")] = .ok "")] at h
  exact Except.noConfusion h

/-- C3 (amended): a present, non-blank literal is returned trimmed; the
resolver fails with a `ConfigurationError` exactly when the literal is absent
or blank and no external key is set, or the key is unset or maps to the empty
string.  A whitespace-only external value trims to `""` and is returned
without error. -/
theorem c3_resolver_characterization :
    (∀ (o : OTPInst) (env : List (String × String)) (u : String),
        o.uri = some u → jsTrim u ≠ "" → OTP.getUri o env = .ok (jsTrim u)) ∧
      (∀ (o : OTPInst) (env : List (String × String)),
        (∃ m, OTP.getUri o env = .error (.configurationError m)) ↔
          (jsTrim (o.uri.getD "") = "" ∧
            (o.envKey = none ∨ ∃ k, o.envKey = some k ∧
              (assocLookup env k = none ∨ assocLookup env k = some "")))) := by
  constructor
  · intro o env u hu htrim
    simp only [OTP.getUri, hu, Option.getD_some]
    rw [if_pos htrim]
  · intro o env
    obtain ⟨ouri, okey, ototp⟩ := o
    simp only [OTP.getUri]
    by_cases htrim : jsTrim (ouri.getD "") = ""
    · rw [if_neg (fun hne => hne htrim)]
      cases okey with
      | none =>
          constructor
          · intro _
            exact ⟨htrim, Or.inl rfl⟩
          · intro _
            exact ⟨"OTP: No URI or envKey provided.", rfl⟩
      | some k =>
          dsimp only [envGetString]
          cases hl : assocLookup env k with
          | none =>
              constructor
              · intro _
                exact ⟨htrim, Or.inr ⟨k, rfl, Or.inl hl⟩⟩
              · intro _
                exact ⟨"Missing environment variable: " ++ k, rfl⟩
          | some raw =>
              dsimp only
              by_cases hraw : raw = ""
              · rw [if_pos hraw]
                constructor
                · intro _
                  refine ⟨htrim, Or.inr ⟨k, rfl, Or.inr ?_⟩⟩
                  rw [hl, hraw]
                · intro _
                  exact ⟨"Missing environment variable: " ++ k, rfl⟩
              · rw [if_neg hraw]
                constructor
                · rintro ⟨m, hm⟩
                  exact Except.noConfusion hm
                · rintro ⟨-, h | ⟨k2, hk2, hlk⟩⟩
                  · exact Option.noConfusion h
                  · obtain rfl : k = k2 := Option.some.inj hk2
                    rcases hlk with h | h
                    · rw [hl] at h
                      exact Option.noConfusion h
                    · rw [hl] at h
                      exact absurd (Option.some.inj h) hraw
    · rw [if_pos htrim]
      constructor
      · rintro ⟨m, hm⟩
        exact Except.noConfusion hm
      · rintro ⟨h, -⟩
        exact absurd h htrim

/-- Witness for C3: a padded literal URI is returned trimmed. -/
theorem c3_resolver_characterization_witness :
    (OTP.fromUri " x ").uri = some " x " ∧ jsTrim " x " ≠ "" ∧
      OTP.getUri (OTP.fromUri " x ") [] = .ok (jsTrim " x ") :=
  ⟨rfl, by decide, c3_resolver_characterization.1 (OTP.fromUri " x ") [] " x " rfl (by decide)⟩

/-- Counterexample to C4 as stated: a whitespace-only candidate (which
normalizes to the empty string) is not rejected before validation with an
empty/non-numeric reason; it flows through window validation and fails with
the generic mismatch reason. -/
theorem c4_whitespace_counterexample :
    verifyCode goldenSpec goldenT "   " 1 (some goldenT) =
      ⟨false, none, some "Invalid or out-of-window token"⟩ ∧
      ("Invalid or out-of-window token" : String) ≠ "Empty or non-string code" :=
  ⟨by decide, by decide⟩

/-- C4 (amended): `verify` rejects immediately, with reason "Empty or
non-string code", exactly the raw empty candidate — before normalization; any
other candidate is normalized, and when the normalized token's length differs
from `digits` (e.g. a whitespace-only candidate normalizing to `""`),
validation fails with the generic reason "Invalid or out-of-window token". -/
theorem c4_empty_check_before_normalize :
    (∀ (spec : TotpSpec) (now window : Nat) (ts : Option Nat),
        verifyCode spec now "" window ts =
          ⟨false, none, some "Empty or non-string code"⟩) ∧
      (∀ (spec : TotpSpec) (now : Nat) (code : String) (window : Nat) (ts : Option Nat),
        code ≠ "" → (normalizeToken code).length ≠ spec.digits →
          verifyCode spec now code window ts =
            ⟨false, none, some "Invalid or out-of-window token"⟩) := by
  constructor
  · intro spec now window ts
    rfl
  · intro spec now code window ts hne hlen
    simp only [verifyCode]
    rw [if_neg hne]
    simp only [totpValidate]
    rw [if_pos hlen]
    rfl

/-- Witness for C4: the whitespace-only candidate at the golden spec. -/
theorem c4_empty_check_before_normalize_witness :
    ("   " : String) ≠ "" ∧ (normalizeToken "   ").length ≠ goldenSpec.digits ∧
      verifyCode goldenSpec goldenT "   " 1 (some goldenT) =
        ⟨false, none, some "Invalid or out-of-window token"⟩ :=
  ⟨by decide, by decide,
    c4_empty_check_before_normalize.2 goldenSpec goldenT "   " 1 (some goldenT)
      (by decide) (by decide)⟩

/-- Counterexample to C5 as stated ("for every instant t"): at the explicit
instant `0`, `getCode(0)` generates for the current time (`goldenT`), while
`verify(·, 0, 0)` validates at instant `0`, so the round-trip fails. -/
theorem c5_epoch_counterexample :
    verifyCode goldenSpec goldenT (generateCode goldenSpec goldenT (some 0)) 0 (some 0) =
      ⟨false, none, some "Invalid or out-of-window token"⟩ := by decide

/-- C5 (amended: for nonzero instants, cf. C10): for every valid `TotpSpec`
and instant `t ≠ 0`, `verify(getCode(t), window := 0, instant := t)` returns
`ok = true` with `delta = 0`. -/
theorem c5_roundtrip_verify (spec : TotpSpec) (now t : Nat)
    (hv : ValidSpec spec) (ht : t ≠ 0) :
    verifyCode spec now (generateCode spec now (some t)) 0 (some t) =
      ⟨true, some 0, none⟩ := by
  obtain ⟨hd1, -, hp, -⟩ := hv
  have htoNat : ((stepOf spec t : Int) + 0).toNat = stepOf spec t := by omega
  have hgen : generateCode spec now (some t) =
      hotpCode spec (((stepOf spec t : Int) + 0).toNat) := by
    simp only [generateCode, tsTruthy, Option.getD_some]
    rw [if_pos (by simpa using ht), htoNat]
    rfl
  have hdist : ∀ i ∈ Finset.Icc (-(0 : Int)) (0 : Int), i ≠ 0 →
      hotpCode spec (((stepOf spec t : Int) + i).toNat) ≠
        hotpCode spec (((stepOf spec t : Int) + 0).toNat) := by
    intro i hi hid
    exfalso
    simp only [Finset.mem_Icc] at hi
    omega
  rw [hgen, verifyCode_code spec now t 0 0 hd1 (by omega) hdist]
  norm_num

/-- Witness for C5: the golden spec at the golden instant. -/
theorem c5_roundtrip_verify_witness :
    ValidSpec goldenSpec ∧ goldenT ≠ 0 ∧
      verifyCode goldenSpec goldenT (generateCode goldenSpec goldenT (some goldenT)) 0
        (some goldenT) = ⟨true, some 0, none⟩ :=
  ⟨by decide, by decide, c5_roundtrip_verify goldenSpec goldenT goldenT (by decide) (by decide)⟩

/-- Counterexample to C6 as stated: the failure reason the wrapper returns is
"Invalid or out-of-window token" (otp.ts line 134), not the claimed "no match
within window" (here `d = 1 > window = 0`). -/
theorem c6_reason_counterexample :
    verifyCode goldenSpec goldenT (totpGenerate goldenSpec (goldenT + 30000)) 0
        (some goldenT) = ⟨false, none, some "Invalid or out-of-window token"⟩ ∧
      ("Invalid or out-of-window token" : String) ≠ "no match within window" :=
  ⟨by decide, by decide⟩

/-- C6 (amended): with the failure reason the implementation actually returns,
and under the proviso (flagged open in spec §9) that the codes of the steps in
the window and of the shifted step are pairwise distinct: for `|d| ≤ window`,
`verify(getCode(t + d·period), window, instant := t)` returns `ok = true,
delta = d`; for `|d| > window` it returns `ok = false, delta = null,
reason = "Invalid or out-of-window token"`. -/
theorem c6_window_tolerance (spec : TotpSpec) (now t : Nat) (window : Nat) (d : Int)
    (hv : ValidSpec spec)
    (hpos : 0 < (t : Int) + d * (1000 * spec.period))
    (hdist : ∀ i ∈ Finset.Icc (-(window : Int)) (window : Int), i ≠ d →
      hotpCode spec (((stepOf spec t : Int) + i).toNat) ≠
        hotpCode spec (((stepOf spec t : Int) + d).toNat)) :
    verifyCode spec now
        (generateCode spec now (some (((t : Int) + d * (1000 * spec.period)).toNat)))
        window (some t) =
      if d.natAbs ≤ window then ⟨true, some d, none⟩
      else ⟨false, none, some "Invalid or out-of-window token"⟩ := by
  obtain ⟨hd1, -, hp, -⟩ := hv
  obtain ⟨hcd, hstep⟩ := stepOf_shift spec hp t d (le_of_lt hpos)
  set u : Int := (t : Int) + d * (1000 * spec.period) with hu
  have ht' : u.toNat ≠ 0 := by omega
  have hgen : generateCode spec now (some u.toNat) =
      hotpCode spec (((stepOf spec t : Int) + d).toNat) := by
    simp only [generateCode, tsTruthy, Option.getD_some]
    rw [if_pos (by simpa using ht')]
    simp only [totpGenerate]
    rw [hstep]
  rw [hgen]
  exact verifyCode_code spec now t window d hd1 hcd hdist

/-- Witness for C6: the end-to-end scenario of spec §8 — the golden code of
instant `goldenT` verifies at instant `goldenT + 30 s` with `window = 1` and
`delta = -1`. -/
theorem c6_window_tolerance_witness :
    ValidSpec goldenSpec ∧
      (0 : Int) < ((goldenT + 30000 : Nat) : Int) + (-1) * (1000 * (goldenSpec.period : Int)) ∧
      (∀ i ∈ Finset.Icc (-(1 : Int)) (1 : Int), i ≠ -1 →
        hotpCode goldenSpec (((stepOf goldenSpec (goldenT + 30000) : Int) + i).toNat) ≠
          hotpCode goldenSpec (((stepOf goldenSpec (goldenT + 30000) : Int) + (-1)).toNat)) ∧
      verifyCode goldenSpec 0
          (generateCode goldenSpec 0
            (some ((((goldenT + 30000 : Nat) : Int) + (-1) * (1000 * (goldenSpec.period : Int))).toNat)))
          1 (some (goldenT + 30000)) = ⟨true, some (-1), none⟩ :=
  ⟨by decide, by decide, by decide,
    (c6_window_tolerance goldenSpec 0 (goldenT + 30000) 1 (-1)
      (by decide) (by decide) (by decide)).trans (by decide)⟩

/-- C7: normalization robustness — a candidate with surrounding whitespace
verifies identically to the bare candidate, for every spec, window and
instant; and the normalizer trims, converts full-width digits, removes inner
whitespace, and upper-cases letters (total by construction). -/
theorem c7_normalization_equivalence :
    (∀ (spec : TotpSpec) (now window : Nat) (ts : Option Nat),
        verifyCode spec now " 123456 " window ts = verifyCode spec now "123456" window ts) ∧
      normalizeToken " 123456 " = "123456" ∧
      normalizeToken "　１２３４５６　" = "123456" ∧
      normalizeToken "12 34　56" = "123456" ∧
      normalizeToken " abc12 " = "ABC12" := by
  refine ⟨fun spec now window ts => ?_, by decide, by decide, by decide, by decide⟩
  simp only [verifyCode]
  rw [if_neg (by decide : ¬(" 123456 " : String) = ""),
    if_neg (by decide : ¬("123456" : String) = "")]
  rw [show normalizeToken " 123456 " = normalizeToken "123456" from by decide]

/-- C8: a provisioning string whose secret is not valid base32 makes the first
`getCode` and `verify` calls fail with the (wrapped) `InvalidSecretError` —
never a crash or a silently generated code — and the error value depends only
on the provisioning string (same input, same error). -/
theorem c8_malformed_secret_invalid_secret_error
    (o : OTPInst) (env : List (String × String)) (uri ty lbl : String)
    (ps : List (String × String)) (s m : String) (now : Nat) (ts : Option Nat)
    (code : String) (window : Nat)
    (hcache : o.totp = none)
    (huri : OTP.getUri o env = .ok uri)
    (hparts : uriParts uri = some (ty, lbl, ps))
    (hty : (⟨ty.data.map lowerAscii⟩ : String) = "totp")
    (hsecret : assocLookup ps "secret" = some s)
    (hbad : base32Decode s = .error m) :
    OTP.getCode o env now ts =
        .error (.invalidSecret ("OTP: Invalid otpauth URI (" ++ OTP.srcTag o ++ "): " ++ m)) ∧
      OTP.verify o env now code window ts =
        .error (.invalidSecret ("OTP: Invalid otpauth URI (" ++ OTP.srcTag o ++ "): " ++ m)) := by
  have hTOTP : OTP.getTOTP o env =
      .error (.invalidSecret ("OTP: Invalid otpauth URI (" ++ OTP.srcTag o ++ "): " ++ m)) := by
    simp only [OTP.getTOTP, hcache, huri]
    simp only [parseOtpAuthUri, hparts]
    rw [if_neg (not_not_intro hty)]
    simp only [hsecret, hbad]
    rfl
  exact ⟨by simp only [OTP.getCode, hTOTP], by simp only [OTP.verify, hTOTP]⟩

/-- Witness for C8: a secret containing `1` (outside the RFC 4648 base32
alphabet) yields the wrapped `InvalidSecretError` on first use. -/
theorem c8_malformed_secret_witness :
    (OTP.fromUri "otpauth://totp/Test?secret=1111").totp = none ∧
      OTP.getUri (OTP.fromUri "otpauth://totp/Test?secret=1111") [] =
        .ok "otpauth://totp/Test?secret=1111" ∧
      uriParts "otpauth://totp/Test?secret=1111" =
        some ("totp", "Test", [("secret", "1111")]) ∧
      (⟨("totp" : String).data.map lowerAscii⟩ : String) = "totp" ∧
      assocLookup [("secret", "1111")] "secret" = some "1111" ∧
      base32Decode "1111" = .error "Invalid base32 character in secret" ∧
      OTP.getCode (OTP.fromUri "otpauth://totp/Test?secret=1111") [] 0 none =
        .error (.invalidSecret ("OTP: Invalid otpauth URI (" ++
          OTP.srcTag (OTP.fromUri "otpauth://totp/Test?secret=1111") ++
          "): " ++ "Invalid base32 character in secret")) :=
  ⟨rfl, by decide, by decide, by decide, by decide, by decide,
    (c8_malformed_secret_invalid_secret_error
      (OTP.fromUri "otpauth://totp/Test?secret=1111") [] "otpauth://totp/Test?secret=1111"
      "totp" "Test" [("secret", "1111")] "1111" "Invalid base32 character in secret"
      0 none "" 1 rfl (by decide) (by decide) (by decide) (by decide) (by decide)).1⟩
